import Mathlib

/-!
Shallow embedding of the PySholl-Pro core (src/src/preprocessor.py and
src/src/analyzer.py) and proofs about it.

Modelling conventions:
* Machine floats are modelled by exact rationals `ℚ` (coordinate arithmetic)
  and exact reals `ℝ` (square roots, in theorem statements only).
* A file on disk is `Option (List (List Cell))`: `none` when the path does not
  exist, otherwise the whitespace-tokenized non-comment content of the file,
  one inner list per line (pandas' `sep=r'\s+'`/`comment='#'` lexing is the
  boundary of the model; a token is either a number, a non-numeric string or a
  missing value `NaN`).
* Python exceptions are the constructors of `PyErr`; a raised exception is
  `Except.error`.
* External OpenCV raster primitives (`cv2.circle`, `cv2.line`) are drawing
  routines of the environment, not code of this repository.  A circle
  rasterizer is therefore a parameter `CircleRast` of the analyzer
  definitions, and the skeleton raster produced by the preprocessor is
  represented by the data that determines it pixel-for-pixel: the canvas size
  together with the ordered list of drawn one-pixel-wide segments
  (`MaskOut`); an explicit renderer `renderMask`, parametric in the line
  rasterizer, recovers the pixel set.
* `cv2.connectedComponents` (8-connectivity, labels `0..n` with `0` the
  background) is modelled by `numComponents`, the number of distinct
  8-connected components of the foreground pixel set, plus one for the
  background label.
-/

/-- Truncation of a rational towards zero, the semantics of numpy/pandas
`.astype(int)` and of Python `int()` on a float value. -/
def truncInt (q : ℚ) : ℤ := if 0 ≤ q then ⌊q⌋ else -⌊-q⌋

/-- Python exceptions that the embedded pipeline can raise.
`fileNotFound` is `FileNotFoundError`, `parserError` is
`pandas.errors.ParserError`, `typeError` is `TypeError`,
`intCastingNaN` is `pandas.errors.IntCastingNaNError` (raised by
`.astype(int)` on non-finite values), `valueError` is `ValueError`.
Note that no constructor models a `DegenerateGeometry` error: no such
exception class exists anywhere in the repository. -/
inductive PyErr where
  | fileNotFound
  | parserError
  | typeError
  | intCastingNaN
  | valueError
deriving DecidableEq

/-- One whitespace-delimited token of the input file as pandas stores it:
a parsed number, a non-numeric string, or a missing value. -/
inductive Cell where
  | num (q : ℚ)
  | str (s : String)
  | nan
deriving DecidableEq

/-- Whether a cell holds a non-numeric string. -/
def cellIsStr : Cell → Bool
  | Cell.str _ => true
  | _ => false

/-- The numeric value of a cell, when it has one. -/
def cellQ : Cell → Option ℚ
  | Cell.num q => some q
  | _ => none

/-- Python `int(cell)`.  On a parsed float it truncates towards zero; on a
missing value (`float('nan')`) it raises `ValueError`.  (Python `int` on a
numeric *string* would also succeed; the numeric pipeline below never feeds
strings to it, and the model conservatively raises `ValueError` there.) -/
def cellInt : Cell → Except PyErr ℤ
  | Cell.num q => Except.ok (truncInt q)
  | _ => Except.error PyErr.valueError

/-- One row of the loaded dataframe: the seven named SWC columns
`id, type, x, y, z, radius, parent` (preprocessor.py line 20). -/
structure SwcRow where
  id : Cell
  type : Cell
  x : Cell
  y : Cell
  z : Cell
  radius : Cell
  parent : Cell
deriving DecidableEq

/-- How pandas fills a tokenized row into the seven named columns: a row
shorter than the declared names is padded with `NaN` at the end. -/
def padRow (cells : List Cell) : SwcRow where
  id := cells.getD 0 Cell.nan
  type := cells.getD 1 Cell.nan
  x := cells.getD 2 Cell.nan
  y := cells.getD 3 Cell.nan
  z := cells.getD 4 Cell.nan
  radius := cells.getD 5 Cell.nan
  parent := cells.getD 6 Cell.nan

/-- Model of `pd.read_csv(file_path, sep=r'\s+', comment='#', names=columns)`
(preprocessor.py line 21) applied to the tokenized non-comment lines.
Blank lines are skipped.  A row with at most the seven declared fields is
padded with `NaN`; a row wider than the declared names is modelled as a
tokenization `ParserError` (pandas' exact behaviour there — index inference
from the first row — is exercised by no claim). -/
def read_csv (lines : List (List Cell)) : Except PyErr (List SwcRow) :=
  let rows := lines.filter (fun l => decide (l ≠ []))
  if rows.all (fun l => decide (l.length ≤ 7)) then
    Except.ok (rows.map padRow)
  else
    Except.error PyErr.parserError

/-- Embedding of `load_swc` (preprocessor.py lines 11-26): raise
`FileNotFoundError` when the path does not exist, otherwise run `read_csv`;
the `try/except` around it logs and re-raises, so any reader error
propagates unchanged. -/
def load_swc (fs : Option (List (List Cell))) : Except PyErr (List SwcRow) :=
  match fs with
  | none => Except.error PyErr.fileNotFound
  | some lines => read_csv lines

/-- Minimum of a nonempty list of rationals (`Series.min`); junk `0` on the
empty list, which the pipeline never uses (the empty dataframe is handled
before any column aggregate). -/
def listMin : List ℚ → ℚ
  | [] => 0
  | x :: xs => xs.foldl min x

/-- Maximum of a nonempty list of rationals (`Series.max`); junk `0` on the
empty list, as for `listMin`. -/
def listMax : List ℚ → ℚ
  | [] => 0
  | x :: xs => xs.foldl max x

/-- Extraction of a fully numeric column.  A `NaN` in the column makes the
normalized column contain `NaN`, so the later `.astype(int)` raises
`IntCastingNaNError`; the model raises it at extraction time (same
exception, same absence of a result). -/
def numericCol (col : List Cell) : Except PyErr (List ℚ) :=
  if col.any (fun c => decide (c = Cell.nan)) then
    Except.error PyErr.intCastingNaN
  else
    Except.ok (col.filterMap cellQ)

/-- Conversion of the `id` / `parent` columns via Python `int(...)`
(preprocessor.py lines 55 and 58). -/
def intCol (col : List Cell) : Except PyErr (List ℤ) :=
  col.mapM cellInt

/-- A pixel position `(x, y)` on the canvas. -/
abbrev Pix := ℤ × ℤ

/-- Embedding of the uniform scale factor (preprocessor.py lines 40-43):
`scale = (min(img_size) - 2 * padding) / max(width, height)` with
`width = max_x - min_x` and `height = max_y - min_y`. -/
def swcScale (xs ys : List ℚ) (sz : ℕ × ℕ) (pad : ℤ) : ℚ :=
  (((min sz.1 sz.2 : ℕ) : ℚ) - 2 * (pad : ℚ)) /
    max (listMax xs - listMin xs) (listMax ys - listMin ys)

/-- Embedding of one normalized coordinate (preprocessor.py lines 45-46):
`((coord - min) * scale + padding).astype(int)`. -/
def normCoord (mn scale : ℚ) (pad : ℤ) (v : ℚ) : ℤ :=
  truncInt ((v - mn) * scale + (pad : ℚ))

/-- The pixel coordinates of every node, in row order: the `norm_x` /
`norm_y` columns of preprocessor.py lines 45-46, paired up. -/
def normalizePixels (xs ys : List ℚ) (sz : ℕ × ℕ) (pad : ℤ) : List Pix :=
  List.zipWith (fun x y =>
    (normCoord (listMin xs) (swcScale xs ys sz pad) pad x,
     normCoord (listMin ys) (swcScale xs ys sz pad) pad y)) xs ys

/-- A node as the drawing loop sees it: integer id, integer parent id, pixel
position (preprocessor.py lines 55-58). -/
structure NodePix where
  id : ℤ
  parent : ℤ
  px : Pix
deriving DecidableEq

/-- The insertion order of the dict comprehension
`{int(row.id): (int(row.norm_x), int(row.norm_y)) for row in df.itertuples()}`
(preprocessor.py line 55). -/
def nodeMapOf (ns : List NodePix) : List (ℤ × Pix) :=
  ns.map (fun n => (n.id, n.px))

/-- Python dict lookup on the association list: a later binding of the same
key overwrites an earlier one, so look the reversed list up. -/
def dictGet (m : List (ℤ × Pix)) (k : ℤ) : Option Pix :=
  m.reverse.lookup k

/-- Embedding of the drawing loop (preprocessor.py lines 57-62): for every
row, in order, if `int(row.parent)` is a key of `node_map` then
`cv2.line(mask, node_map[parent_id], (int(row.norm_x), int(row.norm_y)), 255, thickness=1)`
draws one segment; otherwise the row draws nothing. -/
def drawEdges (ns : List NodePix) : List (Pix × Pix) :=
  ns.filterMap (fun n =>
    Option.map (fun pp => (pp, n.px)) (dictGet (nodeMapOf ns) n.parent))

/-- The produced skeleton raster, by the data that determines it
pixel-for-pixel: the canvas size (`np.zeros(img_size)`) and the ordered list
of one-pixel-wide white segments drawn onto it. -/
structure MaskOut where
  size : ℕ × ℕ
  edges : List (Pix × Pix)
deriving DecidableEq

/-- Rendering a `MaskOut` to its foreground pixel set, given any line
rasterizer `lineRast` (the model of `cv2.line`, a fixed deterministic
function of the two endpoints).  Painting is idempotent union. -/
def renderMask (lineRast : Pix → Pix → Finset Pix) (m : MaskOut) : Finset Pix :=
  m.edges.foldl (fun acc e => acc ∪ lineRast e.1 e.2) ∅

/-- Embedding of `swc_to_binary_mask` (preprocessor.py lines 28-66).
Steps, in the failure order of the source:
1. `load_swc` (`FileNotFoundError` / `ParserError` propagate);
2. an empty dataframe short-circuits to a blank canvas (every Series
   aggregate and cast is a no-op on the empty frame, no node and no edge);
3. a non-numeric string in the `x` or `y` column makes the bounding-box
   aggregates (`df['x'].min()` …, lines 37-38) raise `TypeError`;
4. a `NaN` in `x` or `y` makes `.astype(int)` raise `IntCastingNaNError`
   (lines 45-46);
5. a zero-extent bounding box makes `scale = 900/0.0 = inf` (numpy float
   division by zero raises nothing), then `(coord - min) * inf = 0 * inf =
   nan`, and `.astype(int)` raises `IntCastingNaNError`.  There is no
   `DegenerateGeometry` guard anywhere in the source;
6. `int(row.id)` / `int(row.parent)` conversions (`ValueError` on `NaN`);
7. the drawing loop contributes `drawEdges`. -/
def swc_to_binary_mask (fs : Option (List (List Cell))) (img_size : ℕ × ℕ)
    (padding : ℤ) : Except PyErr MaskOut := do
  let df ← load_swc fs
  if df.isEmpty then
    return { size := img_size, edges := [] }
  let xcol := df.map (fun r => r.x)
  let ycol := df.map (fun r => r.y)
  if xcol.any cellIsStr || ycol.any cellIsStr then
    throw PyErr.typeError
  let xs ← numericCol xcol
  let ys ← numericCol ycol
  if max (listMax xs - listMin xs) (listMax ys - listMin ys) = 0 then
    throw PyErr.intCastingNaN
  let pxs := normalizePixels xs ys img_size padding
  let ids ← intCol (df.map (fun r => r.id))
  let parents ← intCol (df.map (fun r => r.parent))
  let ns := List.zipWith (fun ip px => NodePix.mk ip.1 ip.2 px) (ids.zip parents) pxs
  return { size := img_size, edges := drawEdges ns }

/-- Definition following the specification's words (§4.2): the scale factor
`(min(canvas_width, canvas_height) - 2 * padding) / max(bbox_width, bbox_height)`. -/
def spec_scale (canvasW canvasH : ℕ) (padding : ℤ) (bboxW bboxH : ℚ) : ℚ :=
  (((min canvasW canvasH : ℕ) : ℚ) - 2 * (padding : ℚ)) / max bboxW bboxH

/-- Definition following the specification's words (§4.2): a node
coordinate maps to `(coord - min) * scale + padding`, truncated to integer. -/
def spec_pixel (coord mn scale : ℚ) (padding : ℤ) : ℤ :=
  truncInt ((coord - mn) * scale + (padding : ℚ))

/-- A circle rasterizer: the model of the external `cv2.circle` drawing
primitive, as the (deterministic) set of pixels of the one-pixel-thick
outline of the circle with a given center and integer radius, before
clipping to the canvas. -/
abbrev CircleRast := Pix → ℤ → Finset Pix

/-- The pixels of an `h`-row, `w`-column canvas (`np.zeros_like`): positions
`(x, y)` with `0 ≤ x < w` and `0 ≤ y < h`. -/
def canvasSet (hgt wid : ℕ) : Finset Pix :=
  Finset.Ico (0 : ℤ) (wid : ℤ) ×ˢ Finset.Ico (0 : ℤ) (hgt : ℤ)

/-- Eight-connectivity between pixels, the default connectivity of
`cv2.connectedComponents`. -/
def Adj8 (p q : Pix) : Prop :=
  p ≠ q ∧ (p.1 - q.1).natAbs ≤ 1 ∧ (p.2 - q.2).natAbs ≤ 1

instance (p q : Pix) : Decidable (Adj8 p q) := by
  unfold Adj8; infer_instance

/-- One expansion step of a region `T` inside the foreground set `S`: adjoin
every foreground pixel 8-adjacent to the region. -/
def growStep (S T : Finset Pix) : Finset Pix :=
  T ∪ S.filter (fun q => ∃ r ∈ T, Adj8 r q)

/-- The 8-connected component of `p` inside `S`, computed by saturating the
one-step expansion; `S.card` steps always reach the fixpoint because every
non-final step adds at least one of the at most `S.card` pixels. -/
def componentOf (S : Finset Pix) (p : Pix) : Finset Pix :=
  (growStep S)^[S.card] {p}

/-- Model of `cv2.connectedComponents` minus the background label: the
number of distinct 8-connected components of the foreground set `S`.
`cv2.connectedComponents` itself returns `numComponents S + 1` labels,
label `0` being the background. -/
def numComponents (S : Finset Pix) : ℕ :=
  (S.image (componentOf S)).card

/-- The mask produced by `cv2.circle(np.zeros_like(image), center, r, 255,
thickness=1)` (analyzer.py lines 40-44): the circle outline clipped to the
canvas. -/
def circleOn (cr : CircleRast) (hgt wid : ℕ) (c : Pix) (r : ℤ) : Finset Pix :=
  cr c r ∩ canvasSet hgt wid

/-- Embedding of `ShollAnalyzer._count_intersections` (analyzer.py lines
35-54): draw the circle on a blank mask, `cv2.bitwise_and` it with the
skeleton, count connected-component labels, and return
`max(0, num_labels - 1)`. -/
def countIntersections (cr : CircleRast) (img : Finset Pix) (hgt wid : ℕ)
    (c : Pix) (r : ℤ) : ℕ :=
  let mask := circleOn cr hgt wid c r
  let intersection_points := img ∩ mask
  let num_labels := numComponents intersection_points + 1
  max 0 (num_labels - 1)

/-- Squared Euclidean distance between two integer points, as a natural
number. -/
def sqDistN (p c : Pix) : ℕ :=
  ((p.1 - c.1) ^ 2 + (p.2 - c.2) ^ 2).toNat

/-- Embedding of `ShollAnalyzer._calculate_max_radius` (analyzer.py lines
28-33): `int(max(np.sqrt(d) for each corner d))` over the corners
`(0,0), (w,0), (0,h), (w,h)`.  For natural radicands the float computation
`int(max(√d₁,…,√d₄))` equals `Nat.sqrt (max d₁ … d₄)` exactly (real square
root is monotone and `int` truncates the non-negative result), which is the
executable form used here; the claim theorem states the equality with the
real-valued form. -/
def calcMaxRadius (hgt wid : ℕ) (c : Pix) : ℕ :=
  Nat.sqrt (max (max (sqDistN ((0 : ℤ), (0 : ℤ)) c) (sqDistN ((wid : ℤ), (0 : ℤ)) c))
    (max (sqDistN ((0 : ℤ), (hgt : ℤ)) c) (sqDistN ((wid : ℤ), (hgt : ℤ)) c)))

/-- The default center `(image.shape[1] // 2, image.shape[0] // 2)` used
when the constructor receives `center=None` (analyzer.py line 23). -/
def defaultCenter (hgt wid : ℕ) : Pix := ((wid / 2 : ℕ), (hgt / 2 : ℕ))

/-- Fuel-driven unfolding of Python `range` with a positive step:
while `a < b`, yield `a` and continue from `a + s`. -/
def rangeAscend (s : ℤ) : ℕ → ℤ → ℤ → List ℤ
  | 0, _, _ => []
  | fuel + 1, a, b => if a < b then a :: rangeAscend s fuel (a + s) b else []

/-- Fuel-driven unfolding of Python `range` with a negative step:
while `a > b`, yield `a` and continue from `a + s`. -/
def rangeDescend (s : ℤ) : ℕ → ℤ → ℤ → List ℤ
  | 0, _, _ => []
  | fuel + 1, a, b => if b < a then a :: rangeDescend s fuel (a + s) b else []

/-- Embedding of Python `list(range(a, b, s))` (analyzer.py line 62):
`range` raises `ValueError` when the step is zero, otherwise it enumerates
`a, a+s, a+2s, …` while strictly inside the half-open range.  The fuel
`(b - a).toNat` (resp. `(a - b).toNat`) bounds the element count because
each step moves `a` at least one unit towards the bound. -/
def pyRange (a b s : ℤ) : Except PyErr (List ℤ) :=
  if s = 0 then Except.error PyErr.valueError
  else if 0 < s then Except.ok (rangeAscend s (b - a).toNat a b)
  else Except.ok (rangeDescend s (a - b).toNat a b)

/-- Embedding of `ShollAnalyzer.compute_profile` (analyzer.py lines 56-75):
`radii = list(range(start_radius, max_radius, step_size))`, one intersection
count per radius, assembled into the ordered `(radius, intersections)`
table. -/
def computeProfile (cr : CircleRast) (img : Finset Pix) (hgt wid : ℕ)
    (c : Pix) (start step : ℤ) : Except PyErr (List (ℤ × ℕ)) := do
  let radii ← pyRange start (calcMaxRadius hgt wid c) step
  return radii.map (fun r => (r, countIntersections cr img hgt wid c r))

/-- The mutable state visible to `_count_intersections`: the analyzer's
stored skeleton raster `self.image`.  The scratch circle mask is not part of
the state because each call allocates its own (`np.zeros_like`, analyzer.py
line 40). -/
structure AnalyzerSt where
  image : Finset Pix
deriving DecidableEq

/-- State-threaded embedding of `_count_intersections` (analyzer.py lines
35-54), making the imperative reads and writes explicit: a fresh
all-background scratch raster is allocated, `cv2.circle` writes only that
scratch, `cv2.bitwise_and` allocates a new array from the two inputs, and
`cv2.connectedComponents` only reads; the analyzer state is returned as
left. -/
def countIntersectionsImp (cr : CircleRast) (hgt wid : ℕ) (c : Pix)
    (st : AnalyzerSt) (r : ℤ) : ℕ × AnalyzerSt :=
  let scratch : Finset Pix := ∅
  let mask := scratch ∪ (cr c r ∩ canvasSet hgt wid)
  let intersection_points := st.image ∩ mask
  (max 0 (numComponents intersection_points + 1 - 1), st)

/-- State-threaded embedding of `compute_profile` (analyzer.py lines 56-75):
the per-radius loop threads the analyzer state through
`countIntersectionsImp`, appending each count, and pairs the radii with the
counts at the end. -/
def computeProfileImp (cr : CircleRast) (hgt wid : ℕ) (c : Pix)
    (st : AnalyzerSt) (start step : ℤ) :
    Except PyErr (List (ℤ × ℕ)) × AnalyzerSt :=
  match pyRange start (calcMaxRadius hgt wid c) step with
  | Except.error e => (Except.error e, st)
  | Except.ok radii =>
      let loop := radii.foldl (fun acc r =>
        let res := countIntersectionsImp cr hgt wid c acc.2 r
        (acc.1 ++ [res.1], res.2)) (([] : List ℕ), st)
      (Except.ok (radii.zip loop.1), loop.2)

/-! ## Helper lemmas -/

theorem numComponents_le_card (S : Finset Pix) : numComponents S ≤ S.card := by
  unfold numComponents
  exact Finset.card_image_le

theorem sqDistN_cast (p c : Pix) :
    ((sqDistN p c : ℕ) : ℝ) = ((p.1 - c.1 : ℤ) : ℝ) ^ 2 + ((p.2 - c.2 : ℤ) : ℝ) ^ 2 := by
  have h : (0 : ℤ) ≤ (p.1 - c.1) ^ 2 + (p.2 - c.2) ^ 2 := by positivity
  have h3 : ((((p.1 - c.1) ^ 2 + (p.2 - c.2) ^ 2).toNat : ℕ) : ℝ)
      = (((p.1 - c.1) ^ 2 + (p.2 - c.2) ^ 2 : ℤ) : ℝ) := by
    rw [← Int.cast_natCast (R := ℝ), Int.toNat_of_nonneg h]
  unfold sqDistN
  rw [h3]
  push_cast
  ring

theorem sqrt_monotone : Monotone Real.sqrt := fun _ _ hab => Real.sqrt_le_sqrt hab

/-! ## Claim theorems -/

/-- C1: for every skeleton raster and every sampled radius, the value of
`_count_intersections` equals the number of distinct non-background
connected-component labels of the pixelwise AND of the skeleton and the
circle outline drawn on the canvas, and it is at least `0` and at most the
number of foreground pixels of that circle outline. -/
theorem C1_count_intersections_components_and_bound (cr : CircleRast)
    (img : Finset Pix) (hgt wid : ℕ) (c : Pix) (r : ℤ) :
    countIntersections cr img hgt wid c r
        = numComponents (img ∩ circleOn cr hgt wid c r)
      ∧ 0 ≤ countIntersections cr img hgt wid c r
      ∧ countIntersections cr img hgt wid c r ≤ (circleOn cr hgt wid c r).card := by
  have heq : countIntersections cr img hgt wid c r
      = numComponents (img ∩ circleOn cr hgt wid c r) := by
    simp [countIntersections]
  refine ⟨heq, Nat.zero_le _, ?_⟩
  rw [heq]
  calc numComponents (img ∩ circleOn cr hgt wid c r)
      ≤ (img ∩ circleOn cr hgt wid c r).card := numComponents_le_card _
    _ ≤ (circleOn cr hgt wid c r).card :=
        Finset.card_le_card Finset.inter_subset_right

/-- C5: the value of `_calculate_max_radius` equals the floor of the largest
Euclidean distance from the center to any of the raster's four corners
`(0,0)`, `(w,0)`, `(0,h)`, `(w,h)`. -/
theorem C5_max_radius_is_floor_of_corner_distance (hgt wid : ℕ) (c : Pix) :
    calcMaxRadius hgt wid c =
      ⌊max (max (Real.sqrt (((0 : ℝ) - (c.1 : ℝ)) ^ 2 + ((0 : ℝ) - (c.2 : ℝ)) ^ 2))
                (Real.sqrt (((wid : ℝ) - (c.1 : ℝ)) ^ 2 + ((0 : ℝ) - (c.2 : ℝ)) ^ 2)))
           (max (Real.sqrt (((0 : ℝ) - (c.1 : ℝ)) ^ 2 + ((hgt : ℝ) - (c.2 : ℝ)) ^ 2))
                (Real.sqrt (((wid : ℝ) - (c.1 : ℝ)) ^ 2 + ((hgt : ℝ) - (c.2 : ℝ)) ^ 2)))⌋₊ := by
  have e1 : ((0 : ℝ) - (c.1 : ℝ)) ^ 2 + ((0 : ℝ) - (c.2 : ℝ)) ^ 2
      = ((sqDistN ((0 : ℤ), (0 : ℤ)) c : ℕ) : ℝ) := by
    rw [sqDistN_cast]; push_cast; ring
  have e2 : ((wid : ℝ) - (c.1 : ℝ)) ^ 2 + ((0 : ℝ) - (c.2 : ℝ)) ^ 2
      = ((sqDistN ((wid : ℤ), (0 : ℤ)) c : ℕ) : ℝ) := by
    rw [sqDistN_cast]; push_cast; ring
  have e3 : ((0 : ℝ) - (c.1 : ℝ)) ^ 2 + ((hgt : ℝ) - (c.2 : ℝ)) ^ 2
      = ((sqDistN ((0 : ℤ), (hgt : ℤ)) c : ℕ) : ℝ) := by
    rw [sqDistN_cast]; push_cast; ring
  have e4 : ((wid : ℝ) - (c.1 : ℝ)) ^ 2 + ((hgt : ℝ) - (c.2 : ℝ)) ^ 2
      = ((sqDistN ((wid : ℤ), (hgt : ℤ)) c : ℕ) : ℝ) := by
    rw [sqDistN_cast]; push_cast; ring
  rw [e1, e2, e3, e4, ← sqrt_monotone.map_max, ← sqrt_monotone.map_max,
    ← sqrt_monotone.map_max, ← Nat.cast_max, ← Nat.cast_max, ← Nat.cast_max,
    Real.nat_floor_real_sqrt_eq_nat_sqrt]
  rfl

theorem rangeAscend_getD (s b : ℤ) : ∀ (f : ℕ) (a : ℤ) (i : ℕ),
    i < (rangeAscend s f a b).length → (rangeAscend s f a b).getD i 0 = a + s * i := by
  intro f
  induction f with
  | zero => intro a i hi; simp [rangeAscend] at hi
  | succ f ih =>
    intro a i hi
    by_cases hab : a < b
    · have hcons : rangeAscend s (f + 1) a b = a :: rangeAscend s f (a + s) b := by
        simp [rangeAscend, if_pos hab]
      rw [hcons] at hi ⊢
      match i with
      | 0 => simp
      | Nat.succ j =>
        rw [List.getD_cons_succ]
        rw [ih (a + s) j (by simpa using Nat.lt_of_succ_lt_succ hi)]
        push_cast
        ring
    · have hnil : rangeAscend s (f + 1) a b = [] := by
        simp [rangeAscend, if_neg hab]
      rw [hnil] at hi
      simp at hi

theorem rangeAscend_mem (s b : ℤ) (hs : 0 < s) : ∀ (f : ℕ) (a : ℤ),
    ∀ r ∈ rangeAscend s f a b, a ≤ r ∧ r < b := by
  intro f
  induction f with
  | zero => intro a r hr; simp [rangeAscend] at hr
  | succ f ih =>
    intro a r hr
    by_cases hab : a < b
    · have hcons : rangeAscend s (f + 1) a b = a :: rangeAscend s f (a + s) b := by
        simp [rangeAscend, if_pos hab]
      rw [hcons] at hr
      rcases List.mem_cons.mp hr with h | h
      · exact ⟨le_of_eq h.symm, h ▸ hab⟩
      · have hr2 := ih (a + s) r h
        exact ⟨by linarith [hr2.1], hr2.2⟩
    · have hnil : rangeAscend s (f + 1) a b = [] := by
        simp [rangeAscend, if_neg hab]
      rw [hnil] at hr
      simp at hr

theorem rangeAscend_complete (s b : ℤ) (hs : 0 < s) : ∀ (f : ℕ) (a : ℤ),
    (b - a).toNat ≤ f → b ≤ a + s * (rangeAscend s f a b).length := by
  intro f
  induction f with
  | zero =>
    intro a hf
    simp only [rangeAscend, List.length_nil, Nat.cast_zero, mul_zero, add_zero]
    omega
  | succ f ih =>
    intro a hf
    by_cases hab : a < b
    · have hcons : rangeAscend s (f + 1) a b = a :: rangeAscend s f (a + s) b := by
        simp [rangeAscend, if_pos hab]
      rw [hcons, List.length_cons]
      have hfuel : (b - (a + s)).toNat ≤ f := by omega
      have hrec := ih (a + s) hfuel
      push_cast
      push_cast at hrec
      linarith
    · have hnil : rangeAscend s (f + 1) a b = [] := by
        simp [rangeAscend, if_neg hab]
      rw [hnil]
      simp only [List.length_nil, Nat.cast_zero, mul_zero, add_zero]
      omega

/-- C4: for a positive step size, `compute_profile` returns exactly the
radii `start, start+step, start+2*step, …` strictly below `max_radius`
(half-open range), in that order, each paired with its intersection count;
and when `start ≥ max_radius` the profile is empty, with no error raised. -/
theorem C4_profile_is_half_open_arith_range (cr : CircleRast) (img : Finset Pix)
    (hgt wid : ℕ) (c : Pix) (start step : ℤ) (hs : 0 < step) :
    ∃ radii : List ℤ,
      computeProfile cr img hgt wid c start step
          = Except.ok (radii.map (fun r => (r, countIntersections cr img hgt wid c r)))
        ∧ (∀ i : ℕ, i < radii.length → radii.getD i 0 = start + step * i)
        ∧ (∀ r ∈ radii, start ≤ r ∧ r < (calcMaxRadius hgt wid c : ℤ))
        ∧ (calcMaxRadius hgt wid c : ℤ) ≤ start + step * radii.length
        ∧ ((calcMaxRadius hgt wid c : ℤ) ≤ start → radii = []) := by
  refine ⟨rangeAscend step ((calcMaxRadius hgt wid c : ℤ) - start).toNat start
      (calcMaxRadius hgt wid c : ℤ), ?_, ?_, ?_, ?_, ?_⟩
  · unfold computeProfile pyRange
    rw [if_neg (by omega), if_pos hs]
    rfl
  · intro i hi
    exact rangeAscend_getD step _ _ start i hi
  · intro r hr
    exact rangeAscend_mem step _ hs _ start r hr
  · exact rangeAscend_complete step _ hs _ start (le_refl _)
  · intro hge
    have h0 : ((calcMaxRadius hgt wid c : ℤ) - start).toNat = 0 := by omega
    rw [h0]
    rfl

/-- C10: a zero step size makes `compute_profile` raise (Python `range`
rejects a zero step with `ValueError`) instead of returning a profile, and
`ShollAnalyzer` performs no other validation of `start_radius` or
`step_size`: every nonzero step (and arbitrary start radius) produces a
profile. -/
theorem C10_zero_step_raises_no_other_validation (cr : CircleRast)
    (img : Finset Pix) (hgt wid : ℕ) (c : Pix) (start step : ℤ) :
    (step = 0 → computeProfile cr img hgt wid c start step = Except.error PyErr.valueError)
    ∧ (step ≠ 0 → ∃ profile, computeProfile cr img hgt wid c start step = Except.ok profile) := by
  constructor
  · intro h0
    unfold computeProfile pyRange
    rw [if_pos h0]
    rfl
  · intro hne
    unfold computeProfile pyRange
    rw [if_neg hne]
    by_cases hpos : 0 < step
    · rw [if_pos hpos]; exact ⟨_, rfl⟩
    · rw [if_neg hpos]; exact ⟨_, rfl⟩

theorem zip_self_map (l : List ℤ) (g : ℤ → ℕ) :
    l.zip (l.map g) = l.map (fun r => (r, g r)) := by
  induction l with
  | nil => rfl
  | cons a t ih => simp [ih]

theorem countIntersectionsImp_eq (cr : CircleRast) (hgt wid : ℕ) (c : Pix)
    (st : AnalyzerSt) (r : ℤ) :
    countIntersectionsImp cr hgt wid c st r
      = (countIntersections cr st.image hgt wid c r, st) := by
  simp [countIntersectionsImp, countIntersections, circleOn]

theorem profile_loop_eq (cr : CircleRast) (hgt wid : ℕ) (c : Pix) :
    ∀ (radii : List ℤ) (acc : List ℕ) (st : AnalyzerSt),
      radii.foldl (fun acc2 r =>
          let res := countIntersectionsImp cr hgt wid c acc2.2 r
          (acc2.1 ++ [res.1], res.2)) (acc, st)
        = (acc ++ radii.map (fun r => countIntersections cr st.image hgt wid c r), st) := by
  intro radii
  induction radii with
  | nil => intro acc st; simp
  | cons r rs ih =>
    intro acc st
    rw [List.foldl_cons]
    have hinit : (let res := countIntersectionsImp cr hgt wid c (acc, st).2 r; ((acc, st).1 ++ [res.1], res.2))
        = (acc ++ [countIntersections cr st.image hgt wid c r], st) := by
      simp [countIntersectionsImp_eq]
    rw [hinit, ih]
    simp

/-- C9: `compute_profile` never modifies the stored skeleton raster — the
analyzer state after the whole profile equals the initial state; each call
of `_count_intersections` leaves the state unchanged and its result is a
pure function of the (read-only) image and the radius, carrying no state
between iterations; and the state-threaded computation returns exactly the
pure profile. -/
theorem C9_profile_leaves_image_unchanged (cr : CircleRast) (hgt wid : ℕ)
    (c : Pix) (st : AnalyzerSt) (start step : ℤ) :
    (computeProfileImp cr hgt wid c st start step).2 = st
    ∧ (∀ (s2 : AnalyzerSt) (r : ℤ), (countIntersectionsImp cr hgt wid c s2 r).2 = s2)
    ∧ (∀ (s2 : AnalyzerSt) (r : ℤ),
        (countIntersectionsImp cr hgt wid c s2 r).1
          = countIntersections cr s2.image hgt wid c r)
    ∧ (computeProfileImp cr hgt wid c st start step).1
        = computeProfile cr st.image hgt wid c start step := by
  refine ⟨?_, fun s2 r => rfl, fun s2 r => by rw [countIntersectionsImp_eq], ?_⟩
  · unfold computeProfileImp
    cases hpr : pyRange start (calcMaxRadius hgt wid c) step with
    | error e => rfl
    | ok radii => simp [profile_loop_eq]
  · unfold computeProfileImp computeProfile
    cases hpr : pyRange start (calcMaxRadius hgt wid c) step with
    | error e => rfl
    | ok radii => simp [profile_loop_eq, zip_self_map]

/-- C8: rasterization is deterministic — identical input file contents with
identical canvas size and padding produce the same skeleton raster
description, hence (through any fixed line rasterizer) pixel-identical
rasters. -/
theorem C8_rasterization_deterministic (fs1 fs2 : Option (List (List Cell)))
    (sz : ℕ × ℕ) (pad : ℤ) (h : fs1 = fs2) :
    swc_to_binary_mask fs1 sz pad = swc_to_binary_mask fs2 sz pad
    ∧ ∀ lineRast : Pix → Pix → Finset Pix,
        (swc_to_binary_mask fs1 sz pad).map (renderMask lineRast)
          = (swc_to_binary_mask fs2 sz pad).map (renderMask lineRast) := by
  subst h
  exact ⟨rfl, fun _ => rfl⟩

/-- C6: the rasterizer's scale factor is
`(min(canvas_w, canvas_h) - 2*padding) / max(bbox_w, bbox_h)` and every
node's pixel coordinate is `(coord - min) * scale + padding` truncated to
integer, applied identically to x (against min x) and y (against min y). -/
theorem C6_scale_and_pixel_formulas (xs ys : List ℚ) (sz : ℕ × ℕ) (pad : ℤ)
    (hbb : max (listMax xs - listMin xs) (listMax ys - listMin ys) ≠ 0) :
    swcScale xs ys sz pad
        = spec_scale sz.1 sz.2 pad (listMax xs - listMin xs) (listMax ys - listMin ys)
    ∧ normalizePixels xs ys sz pad
        = List.zipWith (fun x y =>
            (spec_pixel x (listMin xs)
              (spec_scale sz.1 sz.2 pad (listMax xs - listMin xs) (listMax ys - listMin ys)) pad,
             spec_pixel y (listMin ys)
              (spec_scale sz.1 sz.2 pad (listMax xs - listMin xs) (listMax ys - listMin ys)) pad))
          xs ys :=
  ⟨rfl, rfl⟩

theorem lookup_isSome_iff (m : List (ℤ × Pix)) (k : ℤ) :
    (∃ v, m.lookup k = some v) ↔ k ∈ m.map Prod.fst := by
  induction m with
  | nil => simp [List.lookup]
  | cons p t ih =>
    rcases p with ⟨k2, v2⟩
    by_cases hk : k2 = k
    · subst hk
      simp [List.lookup]
    · have hbeq : (k == k2) = false := beq_false_of_ne (fun he => hk he.symm)
      simp [List.lookup, hbeq, ih, hk]
      exact fun he => absurd he.symm hk

theorem dictGet_isSome_iff (ns : List NodePix) (k : ℤ) :
    (∃ v, dictGet (nodeMapOf ns) k = some v) ↔ ∃ n ∈ ns, n.id = k := by
  unfold dictGet nodeMapOf
  rw [lookup_isSome_iff]
  simp [List.mem_reverse]

/-- C7 (amended): in the drawing loop, a one-pixel-wide segment from the
parent's pixel to the node's pixel is drawn precisely for the nodes whose
parent id is a key of the id→pixel mapping (equivalently: occurs as some
node's id); a node whose parent id is absent from the mapping contributes
no edge.  The no-parent sentinel is not special-cased: it suppresses the
edge only because, in well-formed data, no node carries it as an id. -/
theorem C7_edge_iff_parent_resolves (ns : List NodePix) :
    drawEdges ns = ns.filterMap (fun n =>
        Option.map (fun pp => (pp, n.px)) (dictGet (nodeMapOf ns) n.parent))
    ∧ (∀ n ∈ ns, ((∃ m ∈ ns, m.id = n.parent)
        ↔ ∃ pp, dictGet (nodeMapOf ns) n.parent = some pp))
    ∧ (∀ n ∈ ns, (∃ m ∈ ns, m.id = n.parent)
        → ∃ pp, dictGet (nodeMapOf ns) n.parent = some pp ∧ (pp, n.px) ∈ drawEdges ns) := by
  refine ⟨rfl, fun n _ => (dictGet_isSome_iff ns n.parent).symm, fun n hn hres => ?_⟩
  obtain ⟨pp, hpp⟩ := (dictGet_isSome_iff ns n.parent).mpr hres
  refine ⟨pp, hpp, List.mem_filterMap.mpr ⟨n, hn, ?_⟩⟩
  rw [hpp]
  rfl

/-- C3 (counterexample): a file whose single non-comment line has only six
whitespace-delimited fields is loaded successfully (the missing trailing
`parent` field becomes `NaN`), and a file with a non-numeric `x` field is
also loaded successfully — neither fails with `ParseError` as the claim
states. -/
theorem C3_counterexample_lenient_loads :
    load_swc (some [[Cell.num 1, Cell.num 2, Cell.num 0, Cell.num 0,
        Cell.num 0, Cell.num 1]])
        = Except.ok [SwcRow.mk (Cell.num 1) (Cell.num 2) (Cell.num 0)
            (Cell.num 0) (Cell.num 0) (Cell.num 1) Cell.nan]
    ∧ load_swc (some [[Cell.num 1, Cell.num 2, Cell.str "abc", Cell.num 0,
        Cell.num 0, Cell.num 1, Cell.num (-1)]])
        = Except.ok [SwcRow.mk (Cell.num 1) (Cell.num 2) (Cell.str "abc")
            (Cell.num 0) (Cell.num 0) (Cell.num 1) (Cell.num (-1))] :=
  ⟨rfl, rfl⟩

/-- C3 (amended): for any file whose non-comment lines each split into at
most 7 fields, the loader succeeds — even when a line has fewer than 7
fields (missing trailing fields become `NaN`) or contains a non-numeric
field; no `ParseError` is raised. -/
theorem C3_loader_accepts_short_and_nonnumeric_rows (lines : List (List Cell))
    (h : ∀ l ∈ lines, l.length ≤ 7) :
    load_swc (some lines)
      = Except.ok ((lines.filter (fun l => decide (l ≠ []))).map padRow) := by
  show read_csv lines = _
  unfold read_csv
  rw [if_pos]
  rw [List.all_eq_true]
  intro l hl
  simp only [decide_eq_true_eq]
  exact h _ (List.mem_filter.mp hl).1

/-- C3 (witness for the amended claim): a concrete five-field line is
loaded successfully with the two missing trailing fields as `NaN`. -/
theorem C3_loader_accepts_short_rows_witness :
    (∀ l ∈ [[Cell.num 3, Cell.num 1, Cell.num 2, Cell.num 2, Cell.num 0]], l.length ≤ 7)
    ∧ load_swc (some [[Cell.num 3, Cell.num 1, Cell.num 2, Cell.num 2, Cell.num 0]])
        = Except.ok (([[Cell.num 3, Cell.num 1, Cell.num 2, Cell.num 2, Cell.num 0]].filter
            (fun l => decide (l ≠ []))).map padRow) :=
  ⟨by decide, C3_loader_accepts_short_and_nonnumeric_rows _ (by decide)⟩

theorem except_bind_ok {α β : Type} (a : α) (f : α → Except PyErr β) :
    (Except.ok a >>= f) = f a := rfl

theorem swc_mask_degenerate_bbox (fs : Option (List (List Cell))) (sz : ℕ × ℕ) (pad : ℤ)
    (df : List SwcRow) (h1 : load_swc fs = Except.ok df) (hne : df.isEmpty = false)
    (hx : (df.map (fun r => r.x)).any cellIsStr = false)
    (hy : (df.map (fun r => r.y)).any cellIsStr = false)
    (hxn : (df.map (fun r => r.x)).any (fun c => decide (c = Cell.nan)) = false)
    (hyn : (df.map (fun r => r.y)).any (fun c => decide (c = Cell.nan)) = false)
    (hdeg : max (listMax ((df.map (fun r => r.x)).filterMap cellQ)
                  - listMin ((df.map (fun r => r.x)).filterMap cellQ))
               (listMax ((df.map (fun r => r.y)).filterMap cellQ)
                  - listMin ((df.map (fun r => r.y)).filterMap cellQ)) = 0) :
    swc_to_binary_mask fs sz pad = Except.error PyErr.intCastingNaN := by
  unfold swc_to_binary_mask numericCol
  rw [h1]
  simp only [except_bind_ok, hne, hx, hy, hxn, hyn, Bool.or_self, Bool.false_eq_true,
    if_false, ite_false]
  rw [if_pos hdeg]
  rfl

theorem swc_mask_run (fs : Option (List (List Cell))) (sz : ℕ × ℕ) (pad : ℤ)
    (df : List SwcRow) (h1 : load_swc fs = Except.ok df) (hne : df.isEmpty = false)
    (hx : (df.map (fun r => r.x)).any cellIsStr = false)
    (hy : (df.map (fun r => r.y)).any cellIsStr = false)
    (hxn : (df.map (fun r => r.x)).any (fun c => decide (c = Cell.nan)) = false)
    (hyn : (df.map (fun r => r.y)).any (fun c => decide (c = Cell.nan)) = false)
    (hdeg : ¬(max (listMax ((df.map (fun r => r.x)).filterMap cellQ)
                  - listMin ((df.map (fun r => r.x)).filterMap cellQ))
               (listMax ((df.map (fun r => r.y)).filterMap cellQ)
                  - listMin ((df.map (fun r => r.y)).filterMap cellQ)) = 0))
    (ids parents : List ℤ)
    (hids : intCol (df.map (fun r => r.id)) = Except.ok ids)
    (hpar : intCol (df.map (fun r => r.parent)) = Except.ok parents) :
    swc_to_binary_mask fs sz pad = Except.ok
      { size := sz,
        edges := drawEdges (List.zipWith (fun ip px => NodePix.mk ip.1 ip.2 px)
          (ids.zip parents)
          (normalizePixels ((df.map (fun r => r.x)).filterMap cellQ)
            ((df.map (fun r => r.y)).filterMap cellQ) sz pad)) } := by
  unfold swc_to_binary_mask numericCol
  rw [h1]
  simp only [except_bind_ok, hne, hx, hy, hxn, hyn, Bool.or_self, Bool.false_eq_true,
    if_false, ite_false]
  rw [if_neg hdeg]
  simp only [hids, hpar, except_bind_ok]
  rfl

/-- C2: on an input whose nodes all share one position (both bounding-box
dimensions zero), `swc_to_binary_mask` does NOT fail with a
`DegenerateGeometry` error: no such error exists in the code.  The scale
computation divides by zero (`900 / 0.0 = inf` under numpy float semantics),
the normalized coordinates become `NaN`, and the run aborts with pandas'
`IntCastingNaNError` at `.astype(int)`.  This theorem evaluates the embedded
code at the failing input. -/
theorem C2_degenerate_bbox_raises_cast_error_not_degenerate_geometry :
    swc_to_binary_mask (some [[Cell.num 1, Cell.num 1, Cell.num 5, Cell.num 5,
        Cell.num 0, Cell.num 1, Cell.num (-1)]]) (1000, 1000) 50
      = Except.error PyErr.intCastingNaN := by
  refine swc_mask_degenerate_bbox _ _ _
    [SwcRow.mk (Cell.num 1) (Cell.num 1) (Cell.num 5) (Cell.num 5) (Cell.num 0)
      (Cell.num 1) (Cell.num (-1))] rfl rfl rfl rfl rfl rfl ?_
  show max ((5:ℚ) - 5) ((5:ℚ) - 5) = 0
  norm_num

/-- C7 (counterexample): the no-parent sentinel `-1` is not special-cased.
In a file whose first node has id `-1` (and an unresolvable parent `-5`)
and whose second node has the sentinel parent `-1`, the claim says neither
node contributes an edge; the code draws one segment, from the pixel of the
id `-1` node `(50, 50)` to the pixel of the second node `(725, 950)`
(bbox `[0,3]×[0,4]`, scale `(1000 - 100)/4 = 225`). -/
theorem C7_counterexample_sentinel_id_draws_edge :
    swc_to_binary_mask (some
        [[Cell.num (-1), Cell.num 1, Cell.num 0, Cell.num 0, Cell.num 0, Cell.num 1, Cell.num (-5)],
         [Cell.num 2, Cell.num 1, Cell.num 3, Cell.num 4, Cell.num 0, Cell.num 1, Cell.num (-1)]])
        (1000, 1000) 50
      = Except.ok { size := (1000, 1000), edges := [((50, 50), (725, 950))] } := by
  have hrun := swc_mask_run (some
        [[Cell.num (-1), Cell.num 1, Cell.num 0, Cell.num 0, Cell.num 0, Cell.num 1, Cell.num (-5)],
         [Cell.num 2, Cell.num 1, Cell.num 3, Cell.num 4, Cell.num 0, Cell.num 1, Cell.num (-1)]])
      (1000, 1000) 50
      [SwcRow.mk (Cell.num (-1)) (Cell.num 1) (Cell.num 0) (Cell.num 0) (Cell.num 0)
         (Cell.num 1) (Cell.num (-5)),
       SwcRow.mk (Cell.num 2) (Cell.num 1) (Cell.num 3) (Cell.num 4) (Cell.num 0)
         (Cell.num 1) (Cell.num (-1))]
      rfl rfl rfl rfl rfl rfl
      (by show ¬(max ((3:ℚ) - 0) ((4:ℚ) - 0) = 0); norm_num)
      [-1, 2] [-5, -1]
      (by have h1 : truncInt (-1 : ℚ) = -1 := by norm_num [truncInt]
          have h2 : truncInt (2 : ℚ) = 2 := by norm_num [truncInt]
          show intCol [Cell.num (-1), Cell.num 2] = Except.ok [-1, 2]
          rw [show intCol [Cell.num (-1), Cell.num 2]
              = Except.ok [truncInt (-1 : ℚ), truncInt (2 : ℚ)] from rfl, h1, h2])
      (by have h1 : truncInt (-5 : ℚ) = -5 := by norm_num [truncInt]
          have h2 : truncInt (-1 : ℚ) = -1 := by norm_num [truncInt]
          show intCol [Cell.num (-5), Cell.num (-1)] = Except.ok [-5, -1]
          rw [show intCol [Cell.num (-5), Cell.num (-1)]
              = Except.ok [truncInt (-5 : ℚ), truncInt (-1 : ℚ)] from rfl, h1, h2])
  rw [hrun]
  have hpix : normalizePixels [(0:ℚ), 3] [(0:ℚ), 4] (1000, 1000) 50
      = [(50, 50), (725, 950)] := by
    norm_num [normalizePixels, normCoord, swcScale, truncInt, listMin, listMax]
  show Except.ok (MaskOut.mk ((1000:ℕ), (1000:ℕ))
      (drawEdges (List.zipWith (fun ip px => NodePix.mk ip.1 ip.2 px)
        ([(-1:ℤ), 2].zip [(-5:ℤ), -1]) (normalizePixels [(0:ℚ), 3] [(0:ℚ), 4] (1000, 1000) 50))))
    = Except.ok (MaskOut.mk ((1000:ℕ), (1000:ℕ)) [((50, 50), (725, 950))])
  rw [hpix]
  rfl

/-- C4 (witness): the profile property instantiated at a concrete raster
(4×4, center (2,2), `max_radius = 2`), start radius 10 and step 10, with
the positive-step hypothesis discharged concretely. -/
theorem C4_profile_is_half_open_arith_range_witness :
    (0:ℤ) < 10 ∧ ∃ radii : List ℤ,
      computeProfile (fun _ _ => (∅ : Finset Pix)) ∅ 4 4 (2, 2) 10 10
          = Except.ok (radii.map (fun r =>
              (r, countIntersections (fun _ _ => (∅ : Finset Pix)) ∅ 4 4 (2, 2) r)))
        ∧ (∀ i : ℕ, i < radii.length → radii.getD i 0 = 10 + 10 * i)
        ∧ (∀ r ∈ radii, 10 ≤ r ∧ r < (calcMaxRadius 4 4 (2, 2) : ℤ))
        ∧ (calcMaxRadius 4 4 (2, 2) : ℤ) ≤ 10 + 10 * radii.length
        ∧ ((calcMaxRadius 4 4 (2, 2) : ℤ) ≤ 10 → radii = []) :=
  ⟨by norm_num,
   C4_profile_is_half_open_arith_range (fun _ _ => (∅ : Finset Pix)) ∅ 4 4 (2, 2) 10 10
     (by norm_num)⟩

/-- C6 (witness): the scale and pixel formulas instantiated at the concrete
bounding box `[0,3]×[0,4]`, canvas `1000×1000`, padding `50`, with the
non-degeneracy hypothesis discharged concretely. -/
theorem C6_scale_and_pixel_formulas_witness :
    max (listMax [(0:ℚ), 3] - listMin [(0:ℚ), 3]) (listMax [(0:ℚ), 4] - listMin [(0:ℚ), 4]) ≠ 0
    ∧ (swcScale [(0:ℚ), 3] [(0:ℚ), 4] (1000, 1000) 50
        = spec_scale 1000 1000 50 (listMax [(0:ℚ), 3] - listMin [(0:ℚ), 3])
            (listMax [(0:ℚ), 4] - listMin [(0:ℚ), 4])
      ∧ normalizePixels [(0:ℚ), 3] [(0:ℚ), 4] (1000, 1000) 50
        = List.zipWith (fun x y =>
            (spec_pixel x (listMin [(0:ℚ), 3])
              (spec_scale 1000 1000 50 (listMax [(0:ℚ), 3] - listMin [(0:ℚ), 3])
                (listMax [(0:ℚ), 4] - listMin [(0:ℚ), 4])) 50,
             spec_pixel y (listMin [(0:ℚ), 4])
              (spec_scale 1000 1000 50 (listMax [(0:ℚ), 3] - listMin [(0:ℚ), 3])
                (listMax [(0:ℚ), 4] - listMin [(0:ℚ), 4])) 50))
          [(0:ℚ), 3] [(0:ℚ), 4]) :=
  ⟨by norm_num [listMax, listMin],
   C6_scale_and_pixel_formulas [(0:ℚ), 3] [(0:ℚ), 4] (1000, 1000) 50
     (by norm_num [listMax, listMin])⟩

/-- C8 (witness): determinism instantiated at a concrete input file. -/
theorem C8_rasterization_deterministic_witness :
    (some [[Cell.num 1]] : Option (List (List Cell))) = some [[Cell.num 1]]
    ∧ (swc_to_binary_mask (some [[Cell.num 1]]) (100, 100) 10
        = swc_to_binary_mask (some [[Cell.num 1]]) (100, 100) 10
      ∧ ∀ lineRast : Pix → Pix → Finset Pix,
          (swc_to_binary_mask (some [[Cell.num 1]]) (100, 100) 10).map (renderMask lineRast)
            = (swc_to_binary_mask (some [[Cell.num 1]]) (100, 100) 10).map (renderMask lineRast)) :=
  ⟨rfl, C8_rasterization_deterministic (some [[Cell.num 1]]) (some [[Cell.num 1]]) (100, 100) 10 rfl⟩

/-- C10 (witness): a zero step raises `ValueError` and a nonzero step
returns a profile, at a concrete raster and start radius. -/
theorem C10_zero_step_raises_no_other_validation_witness :
    computeProfile (fun _ _ => (∅ : Finset Pix)) ∅ 4 4 (2, 2) 10 0
        = Except.error PyErr.valueError
    ∧ ∃ profile, computeProfile (fun _ _ => (∅ : Finset Pix)) ∅ 4 4 (2, 2) 10 3
        = Except.ok profile :=
  ⟨(C10_zero_step_raises_no_other_validation (fun _ _ => (∅ : Finset Pix)) ∅ 4 4 (2, 2) 10 0).1 rfl,
   (C10_zero_step_raises_no_other_validation (fun _ _ => (∅ : Finset Pix)) ∅ 4 4 (2, 2) 10 3).2
     (by norm_num)⟩

/-- C7 (witness for the amended claim): the edge characterization
instantiated at a concrete two-node list (a root with sentinel parent and
a child referencing it). -/
theorem C7_edge_iff_parent_resolves_witness :
    drawEdges [NodePix.mk 1 (-1) (0, 0), NodePix.mk 2 1 (5, 5)]
        = [NodePix.mk 1 (-1) (0, 0), NodePix.mk 2 1 (5, 5)].filterMap (fun n =>
            Option.map (fun pp => (pp, n.px))
              (dictGet (nodeMapOf [NodePix.mk 1 (-1) (0, 0), NodePix.mk 2 1 (5, 5)]) n.parent))
    ∧ (∀ n ∈ [NodePix.mk 1 (-1) (0, 0), NodePix.mk 2 1 (5, 5)],
        ((∃ m ∈ [NodePix.mk 1 (-1) (0, 0), NodePix.mk 2 1 (5, 5)], m.id = n.parent)
          ↔ ∃ pp, dictGet (nodeMapOf [NodePix.mk 1 (-1) (0, 0), NodePix.mk 2 1 (5, 5)]) n.parent
              = some pp))
    ∧ (∀ n ∈ [NodePix.mk 1 (-1) (0, 0), NodePix.mk 2 1 (5, 5)],
        (∃ m ∈ [NodePix.mk 1 (-1) (0, 0), NodePix.mk 2 1 (5, 5)], m.id = n.parent)
          → ∃ pp, dictGet (nodeMapOf [NodePix.mk 1 (-1) (0, 0), NodePix.mk 2 1 (5, 5)]) n.parent
              = some pp
            ∧ (pp, n.px) ∈ drawEdges [NodePix.mk 1 (-1) (0, 0), NodePix.mk 2 1 (5, 5)]) :=
  C7_edge_iff_parent_resolves [NodePix.mk 1 (-1) (0, 0), NodePix.mk 2 1 (5, 5)]
